import Mathlib

/-!
Verification of the `zipper` archive library (zip.js, src/zip.js, tar.js and
the experimental streaming builder) against its specification.

Byte sequences are modelled as `List Nat` (each element a byte 0..255 where
the source guarantees it, otherwise an arbitrary JS number truncated where
the source truncates).  JS strings are modelled as `List Nat` of UTF-16 code
units.  32-bit JS bitwise arithmetic is modelled on `Nat`: all CRC values
stay below `2 ^ 32`, `x >>> n` is `Nat.shiftRight`, `x ^ y` is `Nat.xor`,
`x & y` is `Nat.land`, and the final `>>> 0` reinterpretation is the
identity on the nonnegative values that arise here.
-/

set_option maxRecDepth 4096

/-- JS `Date` object, holding the values of its component getters.
`month` is 0-based, exactly as JS `getMonth()` returns it. -/
structure JsDate where
  fullYear : Nat
  month : Nat
  date : Nat
  hours : Nat
  minutes : Nat
  seconds : Nat
deriving DecidableEq, Repr

/-- The JS values accepted as entry data by the data-coercion chain shared
by zip.js (lines 62-76) and src/zip.js (lines 73-88): `nullish` stands for
any falsy non-string value (`null`, `undefined`, `0`, `false`, `NaN`);
`other` for any other value. -/
inductive JsData where
  | uint8 (bytes : List Nat)
  | str (s : List Nat)
  | arrayBuffer (bytes : List Nat)
  | view (values : List Nat)
  | arr (values : List Nat)
  | nullish
  | other
deriving DecidableEq, Repr

/-- Decidable equality for `Except`, used to evaluate the embedded
fallible operations on concrete inputs. -/
instance {e a : Type _} [DecidableEq e] [DecidableEq a] :
    DecidableEq (Except e a) := fun x y =>
  match x, y with
  | .error u, .error v =>
      if h : u = v then isTrue (h ▸ rfl) else isFalse (fun hh => h (by injection hh))
  | .error _, .ok _ => isFalse (fun hh => by injection hh)
  | .ok _, .error _ => isFalse (fun hh => by injection hh)
  | .ok u, .ok v =>
      if h : u = v then isTrue (h ▸ rfl) else isFalse (fun hh => h (by injection hh))

namespace Legacy

/-- CRC table from `zip.js` (`bytesToCrc32`, lines 561-605), transcribed
verbatim from its hexadecimal literals. -/
def CRC_TABLE : List Nat := [
  0x00000000,0x77073096,0xee0e612c,0x990951ba,0x076dc419,0x706af48f,
  0xe963a535,0x9e6495a3,0x0edb8832,0x79dcb8a4,0xe0d5e91e,0x97d2d988,
  0x09b64c2b,0x7eb17cbd,0xe7b82d07,0x90bf1d91,0x1db71064,0x6ab020f2,
  0xf3b97148,0x84be41de,0x1adad47d,0x6ddde4eb,0xf4d4b551,0x83d385c7,
  0x136c9856,0x646ba8c0,0xfd62f97a,0x8a65c9ec,0x14015c4f,0x63066cd9,
  0xfa0f3d63,0x8d080df5,0x3b6e20c8,0x4c69105e,0xd56041e4,0xa2677172,
  0x3c03e4d1,0x4b04d447,0xd20d85fd,0xa50ab56b,0x35b5a8fa,0x42b2986c,
  0xdbbbc9d6,0xacbcf940,0x32d86ce3,0x45df5c75,0xdcd60dcf,0xabd13d59,
  0x26d930ac,0x51de003a,0xc8d75180,0xbfd06116,0x21b4f4b5,0x56b3c423,
  0xcfba9599,0xb8bda50f,0x2802b89e,0x5f058808,0xc60cd9b2,0xb10be924,
  0x2f6f7c87,0x58684c11,0xc1611dab,0xb6662d3d,0x76dc4190,0x01db7106,
  0x98d220bc,0xefd5102a,0x71b18589,0x06b6b51f,0x9fbfe4a5,0xe8b8d433,
  0x7807c9a2,0x0f00f934,0x9609a88e,0xe10e9818,0x7f6a0dbb,0x086d3d2d,
  0x91646c97,0xe6635c01,0x6b6b51f4,0x1c6c6162,0x856530d8,0xf262004e,
  0x6c0695ed,0x1b01a57b,0x8208f4c1,0xf50fc457,0x65b0d9c6,0x12b7e950,
  0x8bbeb8ea,0xfcb9887c,0x62dd1ddf,0x15da2d49,0x8cd37cf3,0xfbd44c65,
  0x4db26158,0x3ab551ce,0xa3bc0074,0xd4bb30e2,0x4adfa541,0x3dd895d7,
  0xa4d1c46d,0xd3d6f4fb,0x4369e96a,0x346ed9fc,0xad678846,0xda60b8d0,
  0x44042d73,0x33031de5,0xaa0a4c5f,0xdd0d7cc9,0x5005713c,0x270241aa,
  0xbe0b1010,0xc90c2086,0x5768b525,0x206f85b3,0xb966d409,0xce61e49f,
  0x5edef90e,0x29d9c998,0xb0d09822,0xc7d7a8b4,0x59b33d17,0x2eb40d81,
  0xb7bd5c3b,0xc0ba6cad,0xedb88320,0x9abfb3b6,0x03b6e20c,0x74b1d29a,
  0xead54739,0x9dd277af,0x04db2615,0x73dc1683,0xe3630b12,0x94643b84,
  0x0d6d6a3e,0x7a6a5aa8,0xe40ecf0b,0x9309ff9d,0x0a00ae27,0x7d079eb1,
  0xf00f9344,0x8708a3d2,0x1e01f268,0x6906c2fe,0xf762575d,0x806567cb,
  0x196c3671,0x6e6b06e7,0xfed41b76,0x89d32be0,0x10da7a5a,0x67dd4acc,
  0xf9b9df6f,0x8ebeeff9,0x17b7be43,0x60b08ed5,0xd6d6a3e8,0xa1d1937e,
  0x38d8c2c4,0x4fdff252,0xd1bb67f1,0xa6bc5767,0x3fb506dd,0x48b2364b,
  0xd80d2bda,0xaf0a1b4c,0x36034af6,0x41047a60,0xdf60efc3,0xa867df55,
  0x316e8eef,0x4669be79,0xcb61b38c,0xbc66831a,0x256fd2a0,0x5268e236,
  0xcc0c7795,0xbb0b4703,0x220216b9,0x5505262f,0xc5ba3bbe,0xb2bd0b28,
  0x2bb45a92,0x5cb36a04,0xc2d7ffa7,0xb5d0cf31,0x2cd99e8b,0x5bdeae1d,
  0x9b64c2b0,0xec63f226,0x756aa39c,0x026d930a,0x9c0906a9,0xeb0e363f,
  0x72076785,0x05005713,0x95bf4a82,0xe2b87a14,0x7bb12bae,0x0cb61b38,
  0x92d28e9b,0xe5d5be0d,0x7cdcefb7,0x0bdbdf21,0x86d3d2d4,0xf1d4e242,
  0x68ddb3f8,0x1fda836e,0x81be16cd,0xf6b9265b,0x6fb077e1,0x18b74777,
  0x88085ae6,0xff0f6a70,0x66063bca,0x11010b5c,0x8f659eff,0xf862ae69,
  0x616bffd3,0x166ccf45,0xa00ae278,0xd70dd2ee,0x4e048354,0x3903b3c2,
  0xa7672661,0xd06016f7,0x4969474d,0x3e6e77db,0xaed16a4a,0xd9d65adc,
  0x40df0b66,0x37d83bf0,0xa9bcae53,0xdebb9ec5,0x47b2cf7f,0x30b5ffe9,
  0xbdbdf21c,0xcabac28a,0x53b39330,0x24b4a3a6,0xbad03605,0xcdd70693,
  0x54de5729,0x23d967bf,0xb3667a2e,0xc4614ab8,0x5d681b02,0x2a6f2b94,
  0xb40bbe37,0xc30c8ea1,0x5a05df1b,0x2d02ef8d]

/-- One iteration of the loop in `bytesToCrc32` (zip.js line 610):
`crc = (crc >>> 8) ^ CRC_TABLE[(crc ^ bytes[i]) & 0xFF]`. -/
def crcStep (crc b : Nat) : Nat :=
  (crc >>> 8) ^^^ CRC_TABLE.getD ((crc ^^^ b) &&& 0xFF) 0

/-- The `bytesToCrc32` function of zip.js.  The accumulator starts at `-1`
(all ones, i.e. `0xFFFFFFFF` as a 32-bit pattern) and the final
`(crc ^ (-1)) >>> 0` is the bitwise complement of the low 32 bits. -/
def bytesToCrc32 (bytes : List Nat) : Nat :=
  (bytes.foldl crcStep 0xFFFFFFFF) ^^^ 0xFFFFFFFF

/-- The `stringToBytes` helper of zip.js (lines 416-426), at its zip.js call
sites, which all omit the optional `len` argument: each UTF-16 code unit is
stored into a `Uint8Array`, wrapping values above 255. -/
def stringToBytes (str : List Nat) : List Nat :=
  str.map (fun c => c % 256)

/-- The `numberToBytes` helper of zip.js (lines 439-451): little-endian,
`len` bytes, `bytes[i] = n & 0xFF` followed by `n >>= 8`. -/
def numberToBytes (n : Nat) : Nat → List Nat
  | 0 => []
  | len + 1 => (n &&& 0xFF) :: numberToBytes (n >>> 8) len

/-- The `validateComment` helper of zip.js (lines 460-473).  `none` models a
`null`/`undefined` argument; a string argument is its own `String(str)`
coercion.  A comment longer than 65535 characters makes it throw. -/
def validateComment : Option (List Nat) → Except String (List Nat)
  | none => .ok []
  | some str =>
      if str.length > 0xFFFF then
        .error "Comment exceeds maximum of 65535 characters."
      else .ok str

/-- The `dateToBytes` helper of zip.js (lines 489-506), applied to the
`Date` it reads (the zip.js call sites pass no date, so this is the wall
clock sampled at the call).  Each computed value is stored into a
`Uint8Array`, hence the `% 256`. -/
def dateToBytes (d : JsDate) : List Nat :=
  let h := d.hours
  let m := d.minutes
  let s := d.seconds
  let year := d.fullYear - 1980
  let month := d.month + 1
  let day := d.date
  [((h <<< 3) + (m >>> 3)) % 256,
   (((m <<< 5) &&& 0xFF) + (s >>> 1)) % 256,
   ((year <<< 1) + (month >>> 3)) % 256,
   (((month <<< 5) &&& 0xFF) + day) % 256]

/-- Character codes of the default path `'untitled'` used by the header
builders when `options.path` is falsy. -/
def untitled : List Nat := [117, 110, 116, 105, 116, 108, 101, 100]

/-- The `getLocalFileHeader` builder of zip.js (lines 236-282).  `extra` is
always the empty string in the source.  The date is the clock sample `d`
(the source's `options.date` is always `undefined` at the call site, so
`dateToBytes` falls back to `new Date()`). -/
def getLocalFileHeader (checksum size : Nat) (path0 : List Nat) (d : JsDate) :
    List Nat :=
  let path := if path0 = [] then untitled else path0
  let extra : List Nat := []
  [0x50, 0x4b, 0x03, 0x04] ++
  [0x0a, 0x00] ++
  [0, 0] ++
  [0, 0] ++
  dateToBytes d ++
  numberToBytes checksum 4 ++
  numberToBytes size 4 ++
  numberToBytes size 4 ++
  numberToBytes path.length 2 ++
  numberToBytes extra.length 2 ++
  stringToBytes path ++
  stringToBytes extra

/-- The `getCentralDirectoryHeader` builder of zip.js (lines 289-360).
`extra` is always empty; `comment` is the already-validated comment — the
only call site passes no comment, for which `validateComment('')` is the
identity on the empty string.  The `isFolder` option is read but never used
by the source builder. -/
def getCentralDirectoryHeader (checksum size : Nat) (path0 : List Nat)
    (offset : Nat) (comment : List Nat) (d : JsDate) : List Nat :=
  let path := if path0 = [] then untitled else path0
  let extra : List Nat := []
  [0x50, 0x4b, 0x01, 0x02] ++
  [0x1e, 0x03] ++
  [0x0a, 0x00] ++
  [0, 0] ++
  [0, 0] ++
  dateToBytes d ++
  numberToBytes checksum 4 ++
  numberToBytes size 4 ++
  numberToBytes size 4 ++
  numberToBytes path.length 2 ++
  numberToBytes extra.length 2 ++
  numberToBytes comment.length 2 ++
  [0, 0] ++
  [0, 0] ++
  [0x00, 0x00, 0xa4, 0x81] ++
  numberToBytes offset 4 ++
  stringToBytes path ++
  stringToBytes extra ++
  stringToBytes comment

/-- The `getEOCDHeader` builder of zip.js (lines 367-407). -/
def getEOCDHeader (entries cdSize cdOffset : Nat) (comment : List Nat) :
    List Nat :=
  [0x50, 0x4b, 0x05, 0x06] ++
  [0, 0] ++
  [0, 0] ++
  numberToBytes entries 2 ++
  numberToBytes entries 2 ++
  numberToBytes cdSize 4 ++
  numberToBytes cdOffset 4 ++
  numberToBytes comment.length 2 ++
  stringToBytes comment

/-- The `getFolderPathsFromPath` helper of zip.js (lines 538-548):
`"my/file/here.txt"` yields `["my", "my/file"]`. -/
def getFolderPathsFromPath (path : List Nat) : List (List Nat) :=
  let arr := if path = [] then [] else path.splitOn 47
  ((List.range arr.length).drop 1).map fun i => List.intercalate [47] (arr.take i)

/-- An entry of the zip.js registry: the validated path and the coerced
data bytes. -/
structure Entry where
  path : List Nat
  data : List Nat
deriving DecidableEq, Repr

/-- The `getFile` lookup of zip.js (lines 191-197): first entry whose path
is exactly `path`. -/
def getFile (entries : List Entry) (path : List Nat) : Option Entry :=
  entries.find? fun e => e.path == path

/-- The `hasFile` predicate of zip.js (lines 183-185). -/
def hasFile (entries : List Entry) (path : List Nat) : Bool :=
  (getFile entries path).isSome

/-- The `getFolder` lookup of zip.js (lines 154-160): first entry whose
path starts with `path + '/'`. -/
def getFolder (entries : List Entry) (path : List Nat) : Option Entry :=
  entries.find? fun e => (path ++ [47]).isPrefixOf e.path

/-- The `hasFolder` predicate of zip.js (lines 146-148). -/
def hasFolder (entries : List Entry) (path : List Nat) : Bool :=
  (getFolder entries path).isSome

/-- Test for the character class `[\x00-\x19\x7F]` of zip.js line 22. -/
def isControlChar (c : Nat) : Bool := c ≤ 0x19 || c == 0x7F

/-- The `replace(/[\x00-\x19\x7F]/, '')` step of zip.js line 22: the regex
has no `g` flag, so only the first matching character is removed. -/
def removeFirstControl : List Nat → List Nat
  | [] => []
  | c :: cs => if isControlChar c then cs else c :: removeFirstControl cs

/-- The `replace(/\/+/g, '/')` step of zip.js line 23: collapse each run of
`/` characters to a single one. -/
def collapseSlashes : List Nat → List Nat
  | [] => []
  | [c] => [c]
  | a :: b :: rest =>
      if a == 47 && b == 47 then collapseSlashes (b :: rest)
      else a :: collapseSlashes (b :: rest)

/-- The JS `String.prototype.trim` whitespace class (ECMA WhiteSpace and
LineTerminator code points). -/
def isJsWhitespace (c : Nat) : Bool :=
  (9 ≤ c && c ≤ 13) || c == 32 || c == 160 || c == 0x1680 ||
  (0x2000 ≤ c && c ≤ 0x200A) || c == 0x2028 || c == 0x2029 ||
  c == 0x202F || c == 0x205F || c == 0x3000 || c == 0xFEFF

/-- The `.trim()` step of zip.js line 24. -/
def trimWs (l : List Nat) : List Nat :=
  ((l.dropWhile isJsWhitespace).reverse.dropWhile isJsWhitespace).reverse

/-- The `replace(/^\//, '')` step of zip.js line 25: remove one leading `/`. -/
def stripLeadingSlash : List Nat → List Nat
  | 47 :: rest => rest
  | l => l

/-- The `replace(/\/$/, '')` step of zip.js line 26: remove one trailing `/`. -/
def stripTrailingSlash (l : List Nat) : List Nat :=
  if l.getLast? == some 47 then l.dropLast else l

/-- The full path normalization chain of `addEntry` (zip.js lines 21-26). -/
def normalizePath (path : List Nat) : List Nat :=
  stripTrailingSlash (stripLeadingSlash (trimWs (collapseSlashes (removeFirstControl path))))

/-- The data-coercion chain of `addEntry` (zip.js lines 62-76): `none`
models the thrown type error; `new Uint8Array(...)` conversion wraps each
element to an unsigned byte. -/
def coerceData : JsData → Option (List Nat)
  | .uint8 b => some b
  | .str s => some (stringToBytes s)
  | .arrayBuffer b => some b
  | .view v => some (v.map (fun c => c % 256))
  | .arr v => some (v.map (fun c => c % 256))
  | .nullish => some []
  | .other => none

/-- The `Zipper.prototype.addEntry` method of zip.js (lines 19-84).  On
success the entry is appended and the new entry count returned; each
`throw` is an `Except.error` carrying the message, and leaves the registry
unchanged (the push only happens after every check passes). -/
def addEntry (entries : List Entry) (path0 : List Nat) (data : JsData) :
    Except String (List Entry × Nat) :=
  let path := normalizePath path0
  if path.length = 0 then .error "path is empty"
  else if path.length > 0xFFFF then
    .error "path exceeds maximum of 65535 characters."
  else if hasFile entries path then .error "path already exists."
  else if hasFolder entries path then
    .error "path collides with an existing folder."
  else if (getFolderPathsFromPath path).any (fun p => hasFile entries p) then
    .error "path parent folder collides with an existing file."
  else
    match coerceData data with
    | none =>
        .error "Data must be one of the following: [String, ArrayBuffer, Uint8Array, Array]"
    | some bytes =>
        if bytes.length > 0xFFFFFFFF then
          .error "data exceeds maximum size of 4294967295 bytes"
        else .ok (entries ++ [⟨path, bytes⟩], entries.length + 1)

/-- Loop state of `Zipper.prototype._pack` (zip.js lines 95-128): the
accumulated parts, central directory headers, running offset and running
central-directory size. -/
structure PackAcc where
  parts : List (List Nat)
  cd : List (List Nat)
  offset : Nat
  cdSize : Nat
deriving DecidableEq, Repr

/-- The entry loop of `Zipper.prototype._pack` (zip.js lines 100-128),
with `d` the wall-clock sample used for the modification date fields. -/
def _packLoop (d : JsDate) : List Entry → Nat → Nat → PackAcc
  | [], offset, cdSize => ⟨[], [], offset, cdSize⟩
  | e :: rest, offset, cdSize =>
      let checksum := bytesToCrc32 e.data
      let localHeader := getLocalFileHeader checksum e.data.length e.path d
      let cdHeader :=
        getCentralDirectoryHeader checksum e.data.length e.path offset [] d
      let r := _packLoop d rest (offset + localHeader.length + e.data.length)
        (cdSize + cdHeader.length)
      ⟨localHeader :: e.data :: r.parts, cdHeader :: r.cd, r.offset, r.cdSize⟩

/-- The `Zipper.prototype._pack` method of zip.js (lines 90-140): validate
the comment (throwing on an over-long one), run the entry loop from offset
0, then append the central directory and the EOCD record. -/
def _pack (entries : List Entry) (comment : List Nat) (d : JsDate) :
    Except String (List (List Nat)) :=
  match validateComment (some comment) with
  | .error e => .error e
  | .ok c =>
      let r := _packLoop d entries 0 0
      .ok (r.parts ++ r.cd ++ [getEOCDHeader r.cd.length r.cdSize r.offset c])

end Legacy

namespace Modern

/-- The `Zipper._CRC_TABLE` of src/zip.js (lines 302-329), transcribed
verbatim from its decimal literals. -/
def _CRC_TABLE : List Nat := [
  0,1996959894,3993919788,2567524794,124634137,1886057615,3915621685,2657392035,249268274,2044508324,
  3772115230,2547177864,162941995,2125561021,3887607047,2428444049,498536548,1789927666,4089016648,2227061214,
  450548861,1843258603,4107580753,2211677639,325883990,1684777152,4251122042,2321926636,335633487,1661365465,
  4195302755,2366115317,997073096,1281953886,3579855332,2724688242,1006888145,1258607687,3524101629,2768942443,
  901097722,1119000684,3686517206,2898065728,853044451,1172266101,3705015759,2882616665,651767980,1373503546,
  3369554304,3218104598,565507253,1454621731,3485111705,3099436303,671266974,1594198024,3322730930,2970347812,
  795835527,1483230225,3244367275,3060149565,1994146192,31158534,2563907772,4023717930,1907459465,112637215,
  2680153253,3904427059,2013776290,251722036,2517215374,3775830040,2137656763,141376813,2439277719,3865271297,
  1802195444,476864866,2238001368,4066508878,1812370925,453092731,2181625025,4111451223,1706088902,314042704,
  2344532202,4240017532,1658658271,366619977,2362670323,4224994405,1303535960,984961486,2747007092,3569037538,
  1256170817,1037604311,2765210733,3554079995,1131014506,879679996,2909243462,3663771856,1141124467,855842277,
  2852801631,3708648649,1342533948,654459306,3188396048,3373015174,1466479909,544179635,3110523913,3462522015,
  1591671054,702138776,2966460450,3352799412,1504918807,783551873,3082640443,3233442989,3988292384,2596254646,
  62317068,1957810842,3939845945,2647816111,81470997,1943803523,3814918930,2489596804,225274430,2053790376,
  3826175755,2466906013,167816743,2097651377,4027552580,2265490386,503444072,1762050814,4150417245,2154129355,
  426522225,1852507879,4275313526,2312317920,282753626,1742555852,4189708143,2394877945,397917763,1622183637,
  3604390888,2714866558,953729732,1340076626,3518719985,2797360999,1068828381,1219638859,3624741850,2936675148,
  906185462,1090812512,3747672003,2825379669,829329135,1181335161,3412177804,3160834842,628085408,1382605366,
  3423369109,3138078467,570562233,1426400815,3317316542,2998733608,733239954,1555261956,3268935591,3050360625,
  752459403,1541320221,2607071920,3965973030,1969922972,40735498,2617837225,3943577151,1913087877,83908371,
  2512341634,3803740692,2075208622,213261112,2463272603,3855990285,2094854071,198958881,2262029012,4057260610,
  1759359992,534414190,2176718541,4139329115,1873836001,414664567,2282248934,4279200368,1711684554,285281116,
  2405801727,4167216745,1634467795,376229701,2685067896,3608007406,1308918612,956543938,2808555105,3495958263,
  1231636301,1047427035,2932959818,3654703836,1088359270,936918000,2847714899,3736837829,1202900863,817233897,
  3183342108,3401237130,1404277552,615818150,3134207493,3453421203,1423857449,601450431,3009837614,3294710456,
  1567103746,711928724,3020668471,3272380065,1510334235,755167117]

/-- One iteration of the loop in `Zipper.bytesToCrc32` (src/zip.js line 345). -/
def crcStep (crc b : Nat) : Nat :=
  (crc >>> 8) ^^^ _CRC_TABLE.getD ((crc ^^^ b) &&& 0xFF) 0

/-- The `Zipper.bytesToCrc32` static of src/zip.js (lines 338-350). -/
def bytesToCrc32 (bytes : List Nat) : Nat :=
  (bytes.foldl crcStep 0xFFFFFFFF) ^^^ 0xFFFFFFFF

/-- The `Zipper.bytesToString` static of src/zip.js (lines 357-366): a JS
string is modelled as its list of code units, so this is the identity. -/
def bytesToString (bytes : List Nat) : List Nat := bytes

/-- The `Zipper.stringToBytes` static of src/zip.js (lines 374-383): each
UTF-16 code unit stored into a `Uint8Array`, wrapping above 255. -/
def stringToBytes (str : List Nat) : List Nat :=
  str.map (fun c => c % 256)

/-- The `Zipper.bytesToNumber` static of src/zip.js (lines 390-402):
little-endian bytes to number, iterating from the last byte down. -/
def bytesToNumber (bytes : List Nat) : Nat :=
  bytes.foldr (fun b n => (n <<< 8) + (b &&& 0xFF)) 0

/-- The `Zipper.numberToBytes` static of src/zip.js (lines 413-428):
little-endian, `pad` bytes, `bytes[i] = n & 0xFF` followed by `n >>= 8`. -/
def numberToBytes (n : Nat) : Nat → List Nat
  | 0 => []
  | pad + 1 => (n &&& 0xFF) :: numberToBytes (n >>> 8) pad

/-- The `Zipper.dateToBytes` static of src/zip.js (lines 435-444):
`((year-1980) << 9) + (month << 5) + day` packed into 2 bytes. -/
def dateToBytes (d : JsDate) : List Nat :=
  let day := d.date
  let month := d.month + 1
  let year := d.fullYear - 1980
  let n := (year <<< 9) + (month <<< 5) + day
  numberToBytes n 2

/-- The `Zipper.timeToBytes` static of src/zip.js (lines 451-460):
`(hour << 11) + (minute << 5) + floor(seconds / 2)` packed into 2 bytes. -/
def timeToBytes (d : JsDate) : List Nat :=
  let h := d.hours
  let m := d.minutes
  let s := d.seconds / 2
  let n := (h <<< 11) + (m <<< 5) + s
  numberToBytes n 2

/-- The `Zipper.bytesToDate` static of src/zip.js (lines 467-479), modelled
as the `(getFullYear, getMonth, getDate)` components the source passes to
`setFullYear` on the `Date` it returns (`getMonth` is 0-based).  `Date`
normalization of out-of-range day/month combinations is host behaviour
outside this model. -/
def bytesToDate (bytes : List Nat) : Nat × Nat × Nat :=
  let n := bytesToNumber bytes
  let day := n &&& 31
  let month := ((n >>> 5) &&& 15) - 1
  let year := ((n >>> 9) &&& 127) + 1980
  (year, month, day)

/-- The `Zipper.bytesToTime` static of src/zip.js (lines 486-500), modelled
as the `(getHours, getMinutes, getSeconds)` components the source sets on
the `Date` it returns. -/
def bytesToTime (bytes : List Nat) : Nat × Nat × Nat :=
  let n := bytesToNumber bytes
  let seconds := (n &&& 31) * 2
  let minutes := (n >>> 5) &&& 63
  let hours := (n >>> 11) &&& 31
  (hours, minutes, seconds)

/-- The data-coercion chain of `_addEntry` (src/zip.js lines 73-88), the
same chain as in zip.js; `none` models the warn-and-skip branch. -/
def coerceData : JsData → Option (List Nat)
  | .uint8 b => some b
  | .str s => some (stringToBytes s)
  | .arrayBuffer b => some b
  | .view v => some (v.map (fun c => c % 256))
  | .arr v => some (v.map (fun c => c % 256))
  | .nullish => some []
  | .other => none

/-- The filename normalization of `_addEntry` (src/zip.js lines 39-42):
the same three regex replacements as zip.js lines 23, 25 and 26 (no
control-character stripping and no trim in this variant). -/
def normalizeFilename (filename : List Nat) : List Nat :=
  Legacy.stripTrailingSlash (Legacy.stripLeadingSlash (Legacy.collapseSlashes filename))

/-- The mutable state of a src/zip.js `Zipper` instance: `_parts` receives
two pushes per entry (local header, then data) and `_cd` one. -/
structure State where
  _parts : List (List Nat)
  _cd : List (List Nat)
deriving DecidableEq, Repr

/-- The empty `Zipper` state built by the constructor (src/zip.js 7-17). -/
def init : State := ⟨[], []⟩

/-- The `getNames` method of src/zip.js (lines 253-265): decode each
central directory record's filename length (bytes 28-30) and filename
(bytes 46 onward). -/
def getNames (st : State) : List (List Nat) :=
  st._cd.map fun bytes =>
    let filenameLength := bytesToNumber ((bytes.drop 28).take 2)
    bytesToString ((bytes.drop 46).take filenameLength)

/-- The local file header built inline by `_addEntry` (src/zip.js lines
111-134), as a function of the validated filename, coerced data and the
`new Date()` sample `d`. -/
def localFileHeader (filename data : List Nat) (d : JsDate) : List Nat :=
  let extraField : List Nat := []
  [0x50, 0x4b, 0x03, 0x04] ++
  [0x0a, 0x00] ++
  [0x00, 0x00] ++
  [0x00, 0x00] ++
  timeToBytes d ++
  dateToBytes d ++
  numberToBytes (bytesToCrc32 data) 4 ++
  numberToBytes data.length 4 ++
  numberToBytes data.length 4 ++
  numberToBytes filename.length 2 ++
  numberToBytes extraField.length 2 ++
  stringToBytes filename ++
  stringToBytes extraField

/-- The central directory header built inline by `_addEntry` (src/zip.js
lines 142-169). -/
def cdFileHeader (filename data : List Nat) (offset : Nat) (isFolder : Bool)
    (d : JsDate) : List Nat :=
  let extraField : List Nat := []
  let fileComment : List Nat := []
  let externalBytes : List Nat :=
    if isFolder then [0x10, 0x00, 0xed, 0x41] else [0x00, 0x00, 0xa4, 0x81]
  [0x50, 0x4b, 0x01, 0x02] ++
  [0x1e, 0x03] ++
  [0x0a, 0x00] ++
  [0x00, 0x00] ++
  [0x00, 0x00] ++
  timeToBytes d ++
  dateToBytes d ++
  numberToBytes (bytesToCrc32 data) 4 ++
  numberToBytes data.length 4 ++
  numberToBytes data.length 4 ++
  numberToBytes filename.length 2 ++
  numberToBytes extraField.length 2 ++
  numberToBytes (stringToBytes fileComment).length 2 ++
  numberToBytes 0 2 ++
  [0x00, 0x00] ++
  externalBytes ++
  numberToBytes offset 4 ++
  stringToBytes filename ++
  stringToBytes extraField ++
  stringToBytes fileComment

/-- The `_addEntry` method of src/zip.js (lines 27-180).  Every failed
check logs a warning and returns the unchanged state with the current
count (warn-and-skip, no exception); a successful add pushes the local
header and the data onto `_parts`, the central directory record onto
`_cd`, and returns the new count.  Inputs are modelled as strings — a
non-string filename takes the same skip branch as the other failures. -/
def _addEntry (st : State) (filename0 : List Nat) (data : JsData)
    (isFolder : Bool) (d : JsDate) : State × Nat :=
  let filename1 := normalizeFilename filename0
  if filename1.length = 0 then (st, st._cd.length)
  else
    let filename :=
      if isFolder && !(filename1.getLast? == some 47) then filename1 ++ [47]
      else filename1
    if filename.length > 0xFF then (st, st._cd.length)
    else if (getNames st).contains filename then (st, st._cd.length)
    else
      match coerceData data with
      | none => (st, st._cd.length)
      | some bytes =>
          if bytes.length > 0xFFFFFFFF then (st, st._cd.length)
          else
            let offset := (st._parts.map List.length).sum
            let localHeader := localFileHeader filename bytes d
            let cdHeader := cdFileHeader filename bytes offset isFolder d
            (⟨st._parts ++ [localHeader, bytes], st._cd ++ [cdHeader]⟩,
              st._cd.length + 1)

/-- The `addFolder` method of src/zip.js (lines 222-230): `_addEntry` with
`null` data and the folder flag. -/
def addFolder (st : State) (path : List Nat) (d : JsDate) : State × Nat :=
  _addEntry st path JsData.nullish true d

/-- The `addFile` method of src/zip.js (lines 232-235). -/
def addFile (st : State) (path : List Nat) (data : JsData) (d : JsDate) :
    State × Nat :=
  _addEntry st path data false d

/-- The `count` method of src/zip.js (lines 237-239). -/
def count (st : State) : Nat := st._cd.length

/-- The `pop` method of src/zip.js (lines 241-251): one `Array.pop` on
`_cd` and two on `_parts` (each a no-op on an empty array), returning the
new count. -/
def pop (st : State) : State × Nat :=
  (⟨st._parts.dropLast.dropLast, st._cd.dropLast⟩, st._cd.dropLast.length)

/-- A comment value passed to `_getEOCD`: a string, or any non-string
value (which the source coerces to the empty comment). -/
inductive MComment where
  | strM (s : List Nat)
  | otherM
deriving DecidableEq, Repr

/-- The comment coercion at the top of `_getEOCD` (src/zip.js lines
187-193): falsy or non-string values become the empty comment, and a
string longer than 65535 characters is truncated by `substr(0, 65535)`. -/
def coerceComment : MComment → List Nat
  | .strM s => if s = [] then [] else if s.length > 65535 then s.take 65535 else s
  | .otherM => []

/-- The `_getEOCD` method of src/zip.js (lines 182-216). -/
def _getEOCD (st : State) (comment0 : MComment) : List Nat :=
  let comment := coerceComment comment0
  let numEntries := st._cd.length
  let cdSize := (st._cd.map List.length).sum
  let cdOffset := (st._parts.map List.length).sum
  [0x50, 0x4b, 0x05, 0x06] ++
  [0x00, 0x00] ++
  [0x00, 0x00] ++
  numberToBytes numEntries 2 ++
  numberToBytes numEntries 2 ++
  numberToBytes cdSize 4 ++
  numberToBytes cdOffset 4 ++
  numberToBytes comment.length 2 ++
  stringToBytes comment

/-- One archive operation, for reasoning about arbitrary call sequences. -/
inductive Op where
  | addFileOp (path : List Nat) (data : JsData) (d : JsDate)
  | addFolderOp (path : List Nat) (d : JsDate)
  | popOp
deriving Repr

/-- Apply one operation to the state, discarding the returned count. -/
def step (st : State) : Op → State
  | .addFileOp p dta d => (addFile st p dta d).fst
  | .addFolderOp p d => (addFolder st p d).fst
  | .popOp => (pop st).fst

/-- Run a sequence of operations from the freshly constructed state. -/
def run (ops : List Op) : State := ops.foldl step init

end Modern

namespace ZipperStream

/-- JS indexing `value[i]` into a `Uint8Array` chunk: reading past the end
gives `undefined`, which the subsequent bitwise operations coerce to 0. -/
def valueAt (value : List Nat) (i : Nat) : Nat := value.getD i 0

/-- One step of the checksum loop of `addStream` (part_001 line 124):
`crc = (crc >>> 8) ^ CRC_TABLE[(crc ^ value[i]) & 0xFF]`.  The streaming
file references a free global `CRC_TABLE`; it is the project's CRC table,
as in zip.js. -/
def crcStep (crc b : Nat) : Nat :=
  (crc >>> 8) ^^^ Legacy.CRC_TABLE.getD ((crc ^^^ b) &&& 0xFF) 0

/-- The per-chunk body of the `addStream` read loop (part_001 lines
102-127) on the running state `(crc, fileLength)`.  The inner
`while (i < fileLength)` loop uses the cross-chunk index `i`, which equals
the old `fileLength` when a chunk arrives, so for a chunk `v` it folds
`value[fileLength] .. value[fileLength + v.length - 1]` into the CRC —
indices taken inside `v` itself, out-of-range reads coercing to byte 0.
The over-4GiB cancellation branch never triggers at the sizes considered
here and is not modelled. -/
def processChunk (st : Nat × Nat) (v : List Nat) : Nat × Nat :=
  ((List.range v.length).foldl (fun c k => crcStep c (valueAt v (st.2 + k))) st.1,
    st.2 + v.length)

/-- The loop state after all chunks: `crc` starts at `-1` (all ones) and
`fileLength` at 0 (part_001 lines 98-99). -/
def streamFold (chunks : List (List Nat)) : Nat × Nat :=
  chunks.foldl processChunk (0xFFFFFFFF, 0)

/-- The CRC written into the Data Descriptor (part_001 line 138):
`(crc ^ (-1)) >>> 0`. -/
def streamCrc (chunks : List (List Nat)) : Nat :=
  (streamFold chunks).1 ^^^ 0xFFFFFFFF

/-- The size written into both size fields of the Data Descriptor
(part_001 lines 141, 146-147): the accumulated `fileLength`. -/
def streamSize (chunks : List (List Nat)) : Nat :=
  (streamFold chunks).2

/-- The Data Descriptor record emitted after the entry data (part_001
lines 143-148). -/
def dataDescriptor (chunks : List (List Nat)) : List Nat :=
  [0x50, 0x4b, 0x07, 0x08] ++
  Modern.numberToBytes (streamCrc chunks) 4 ++
  Modern.numberToBytes (streamSize chunks) 4 ++
  Modern.numberToBytes (streamSize chunks) 4

end ZipperStream

namespace Tar

/-- The `stringToBytes` helper of tar.js (lines 12-22): output always has
length `len`; `charCodeAt` past the end of the string gives `NaN`, stored
as 0, and in-range code units wrap to bytes. -/
def stringToBytes (str : List Nat) (len : Nat) : List Nat :=
  (List.range len).map fun i => str.getD i 0 % 256

/-- The `sumOfArrays` helper of tar.js (lines 78-90). -/
def sumOfArrays (arrays : List (List Nat)) : Nat :=
  (arrays.map List.sum).sum

/-- JS `Number.prototype.toString()` of a nonnegative integer: its decimal
digit characters, most significant first. -/
def natToDecChars (n : Nat) : List Nat := (Nat.toDigits 10 n).map Char.toNat

/-- JS `Number.prototype.toString(8)` of a nonnegative integer: its octal
digit characters, most significant first. -/
def natToOctChars (n : Nat) : List Nat := (Nat.toDigits 8 n).map Char.toNat

/-- The `getTarHeader` builder of tar.js (lines 97-153).  `dateSec` is the
`Math.floor(Number(date) * 0.001)` value, i.e. the whole seconds of the
modification time.  Note line 111 renders the size in decimal. -/
def getTarHeader (path : List Nat) (size : Nat) (dateSec : Nat) : List Nat :=
  let pathBytes := stringToBytes path 100
  let modeBytes := stringToBytes [48, 48, 48, 54, 52, 52, 32] 8
  let ownerBytes := stringToBytes [48, 48, 48, 48, 48, 48, 32] 8
  let groupBytes := stringToBytes [48, 48, 48, 48, 48, 48, 32] 8
  let sizeStr0 := List.replicate 11 48 ++ natToDecChars size ++ [32]
  let sizeStr := sizeStr0.drop (sizeStr0.length - 12)
  let sizeBytes := stringToBytes sizeStr 12
  let dateStr0 := List.replicate 11 48 ++ natToOctChars dateSec ++ [32]
  let dateStr := dateStr0.drop (dateStr0.length - 12)
  let dateBytes := stringToBytes dateStr 12
  let linkBytes := stringToBytes [48] 1
  let linkPathBytes := stringToBytes [] 100
  let sum := sumOfArrays [pathBytes, modeBytes, ownerBytes, groupBytes,
    sizeBytes, dateBytes, [32, 32, 32, 32, 32, 32, 32, 32], linkBytes,
    linkPathBytes]
  let checksumStr0 := List.replicate 6 48 ++ natToOctChars sum
  let checksumStr := checksumStr0.drop (checksumStr0.length - 6)
  let checksumBytes := stringToBytes checksumStr checksumStr.length ++ [0, 32]
  pathBytes ++ modeBytes ++ ownerBytes ++ groupBytes ++ sizeBytes ++
    dateBytes ++ checksumBytes ++ linkBytes ++ linkPathBytes ++
    List.replicate 255 0

/-- The `Zipper.prototype._pack` method of tar.js (lines 176-200): per
file, push the 512-byte header, the data, and — since
`pad = 512 - (data.length % 512)` is never 0 — always a zero block of
`pad` bytes. -/
def _pack : List (List Nat × List Nat) → Nat → List (List Nat)
  | [], _ => []
  | f :: rest, dateSec =>
      let header := getTarHeader f.1 f.2.length dateSec
      let pad := 512 - f.2.length % 512
      header :: f.2 ::
        ((if pad > 0 then [List.replicate pad 0] else []) ++ _pack rest dateSec)

end Tar

namespace CrcSpec

/-- The canonical PKZIP reflected CRC-32 polynomial. -/
def poly : Nat := 0xEDB88320

/-- One bit of the canonical reflected CRC-32: shift right, conditionally
xor the reflected polynomial when the bit shifted out was set. -/
def bitStep (c : Nat) : Nat :=
  if c % 2 = 1 then (c / 2) ^^^ poly else c / 2

/-- Folding one input byte into the accumulator, bit by bit: xor the byte
into the low bits, then run eight polynomial steps. -/
def byteStep (c b : Nat) : Nat := bitStep^[8] (c ^^^ b)

/-- Canonical reflected CRC-32 of a byte sequence: accumulator initialised
to all ones, one `byteStep` per byte, final complement. -/
def crc32 (bytes : List Nat) : Nat :=
  (bytes.foldl byteStep 0xFFFFFFFF) ^^^ 0xFFFFFFFF

end CrcSpec

/-! Theorems. -/

namespace CrcSpec

theorem bitStep_xor_double (a c : Nat) :
    bitStep (a ^^^ 2 * c) = bitStep a ^^^ c := by
  have hc : 2 * c = c <<< 1 := by
    rw [Nat.shiftLeft_eq]; ring
  have hdiv : (a ^^^ 2 * c) / 2 = a / 2 ^^^ c := by
    have h2 : ∀ x : Nat, x / 2 = x >>> 1 := fun x => by
      simp [Nat.shiftRight_eq_div_pow]
    rw [h2, h2]
    apply Nat.eq_of_testBit_eq
    intro i
    simp [Nat.testBit_shiftRight, Nat.testBit_xor, hc, Nat.testBit_shiftLeft,
      Nat.add_sub_cancel_left]
  have hbit : (a ^^^ 2 * c).testBit 0 = a.testBit 0 := by
    rw [hc, Nat.testBit_xor, Nat.testBit_shiftLeft]
    simp
  have hmod : (a ^^^ 2 * c) % 2 = a % 2 := by
    rw [Nat.testBit_zero, Nat.testBit_zero] at hbit
    have := decide_eq_decide.mp hbit
    omega
  unfold bitStep
  rw [hdiv, hmod]
  by_cases h : a % 2 = 1
  · rw [if_pos h, if_pos h, Nat.xor_assoc, Nat.xor_comm c poly, ← Nat.xor_assoc]
  · rw [if_neg h, if_neg h]

theorem iterate_bitStep_xor (k : Nat) :
    ∀ a c : Nat, bitStep^[k] (a ^^^ c <<< k) = bitStep^[k] a ^^^ c := by
  induction k with
  | zero => intro a c; simp
  | succ n ih =>
      intro a c
      have hshift : c <<< (n + 1) = 2 * (c <<< n) := by
        rw [Nat.shiftLeft_eq, Nat.shiftLeft_eq, Nat.pow_succ]; ring
      rw [hshift, Function.iterate_succ_apply, Function.iterate_succ_apply,
        bitStep_xor_double, ih]

/-- Splitting a natural number at bit 8 is a xor decomposition. -/
theorem xor_split_at_8 (x : Nat) : (x % 2 ^ 8) ^^^ (x >>> 8) <<< 8 = x := by
  apply Nat.eq_of_testBit_eq
  intro i
  rw [Nat.testBit_xor, Nat.testBit_shiftLeft, Nat.testBit_mod_two_pow,
    Nat.testBit_shiftRight]
  by_cases h : i < 8
  · have h8 : ¬(8 ≤ i) := Nat.not_le.mpr h
    simp [h, h8]
  · have h8 : 8 ≤ i := Nat.not_lt.mp h
    simp [h, h8, Nat.add_sub_cancel' h8]

/-- Xor with a byte does not change the bits above position 8. -/
theorem xor_byte_shiftRight_8 (c b : Nat) (hb : b < 256) :
    (c ^^^ b) >>> 8 = c >>> 8 := by
  apply Nat.eq_of_testBit_eq
  intro i
  have hbi : b.testBit (8 + i) = false := by
    apply Nat.testBit_lt_two_pow
    calc b < 256 := hb
    _ = 2 ^ 8 := by norm_num
    _ ≤ 2 ^ (8 + i) := Nat.pow_le_pow_right (by norm_num) (Nat.le_add_right _ _)
  simp [Nat.testBit_shiftRight, Nat.testBit_xor, hbi]

/-- The legacy table agrees, entry by entry, with eight canonical
polynomial bit steps. -/
theorem table_entry_eq : ∀ n < 256, Legacy.CRC_TABLE.getD n 0 = bitStep^[8] n := by
  decide

/-- The two source tables (hexadecimal in zip.js, decimal in src/zip.js)
are identical. -/
theorem tables_eq : Legacy.CRC_TABLE = Modern._CRC_TABLE := by decide

/-- The table-driven step of zip.js computes exactly one canonical byte step. -/
theorem crcStep_eq_byteStep (c b : Nat) (hb : b < 256) :
    Legacy.crcStep c b = byteStep c b := by
  unfold Legacy.crcStep byteStep
  have hmod : (c ^^^ b) &&& 0xFF = (c ^^^ b) % 2 ^ 8 := by
    have h : (0xFF : Nat) = 2 ^ 8 - 1 := by norm_num
    rw [h, Nat.and_pow_two_sub_one_eq_mod]
  rw [hmod, table_entry_eq ((c ^^^ b) % 2 ^ 8)
    (Nat.mod_lt _ (by norm_num))]
  conv_rhs => rw [← xor_split_at_8 (c ^^^ b)]
  rw [iterate_bitStep_xor, xor_byte_shiftRight_8 c b hb, Nat.xor_comm]

theorem foldl_crcStep_eq (bytes : List Nat) (h : ∀ b ∈ bytes, b < 256) :
    ∀ acc, bytes.foldl Legacy.crcStep acc = bytes.foldl byteStep acc := by
  induction bytes with
  | nil => intro acc; rfl
  | cons x xs ih =>
      intro acc
      simp only [List.foldl_cons]
      rw [crcStep_eq_byteStep acc x (h x (List.mem_cons_self x xs)),
        ih (fun b hb => h b (List.mem_cons_of_mem x hb))]

end CrcSpec

/-- C1: the checksum engine is the canonical PKZIP reflected CRC-32.
For every byte sequence the table-driven `bytesToCrc32` of zip.js equals
the bit-level canonical CRC-32 (polynomial 0xEDB88320, all-ones initial
accumulator, final complement); the class variant in src/zip.js computes
the same function; and the two known test vectors hold: the empty sequence
gives 0 and the ASCII bytes of "123456789" give 0xCBF43926. -/
theorem crc32_canonical :
    (∀ bytes : List Nat, (∀ b ∈ bytes, b < 256) →
      Legacy.bytesToCrc32 bytes = CrcSpec.crc32 bytes) ∧
    (∀ bytes : List Nat, Legacy.bytesToCrc32 bytes = Modern.bytesToCrc32 bytes) ∧
    Legacy.bytesToCrc32 [] = 0 ∧
    Legacy.bytesToCrc32 [49, 50, 51, 52, 53, 54, 55, 56, 57] = 0xCBF43926 := by
  refine ⟨fun bytes h => ?_, fun bytes => ?_, by decide, by decide⟩
  · unfold Legacy.bytesToCrc32 CrcSpec.crc32
    rw [CrcSpec.foldl_crcStep_eq bytes h]
  · unfold Legacy.bytesToCrc32 Modern.bytesToCrc32
    have hstep : Legacy.crcStep = Modern.crcStep := by
      funext c b
      unfold Legacy.crcStep Modern.crcStep
      rw [CrcSpec.tables_eq]
    rw [hstep]

/-- Witness for C1 at the concrete byte sequence `[1, 2, 3]`. -/
theorem crc32_canonical_witness :
    (∀ b ∈ [1, 2, 3], b < 256) ∧
      Legacy.bytesToCrc32 [1, 2, 3] = CrcSpec.crc32 [1, 2, 3] :=
  ⟨by decide, crc32_canonical.1 [1, 2, 3] (by decide)⟩

theorem land_255_eq_mod (x : Nat) : x &&& 255 = x % 256 := by
  have h : (255 : Nat) = 2 ^ 8 - 1 := by norm_num
  rw [h, Nat.and_pow_two_sub_one_eq_mod]

theorem land_31_eq_mod (x : Nat) : x &&& 31 = x % 32 := by
  have h : (31 : Nat) = 2 ^ 5 - 1 := by norm_num
  rw [h, Nat.and_pow_two_sub_one_eq_mod]

theorem land_63_eq_mod (x : Nat) : x &&& 63 = x % 64 := by
  have h : (63 : Nat) = 2 ^ 6 - 1 := by norm_num
  rw [h, Nat.and_pow_two_sub_one_eq_mod]

theorem land_15_eq_mod (x : Nat) : x &&& 15 = x % 16 := by
  have h : (15 : Nat) = 2 ^ 4 - 1 := by norm_num
  rw [h, Nat.and_pow_two_sub_one_eq_mod]

theorem land_127_eq_mod (x : Nat) : x &&& 127 = x % 128 := by
  have h : (127 : Nat) = 2 ^ 7 - 1 := by norm_num
  rw [h, Nat.and_pow_two_sub_one_eq_mod]

namespace Modern

theorem numberToBytes_length (n : Nat) : ∀ len, (numberToBytes n len).length = len := by
  induction n using Nat.strong_induction_on with
  | _ n ih =>
      intro len
      cases len with
      | zero => rfl
      | succ k =>
          show ((n &&& 0xFF) :: numberToBytes (n >>> 8) k).length = k + 1
          clear ih
          induction k generalizing n with
          | zero => rfl
          | succ j ihj =>
              show _ = j + 1 + 1
              simp only [List.length_cons]
              rw [show (numberToBytes (n >>> 8) (j + 1)) =
                ((n >>> 8) &&& 0xFF) :: numberToBytes ((n >>> 8) >>> 8) j from rfl]
              have := ihj (n >>> 8)
              simp only [List.length_cons] at this ⊢
              omega

theorem bytesToNumber_numberToBytes_two (n : Nat) (h : n < 65536) :
    bytesToNumber (numberToBytes n 2) = n := by
  have e : numberToBytes n 2 = [n &&& 0xFF, (n >>> 8) &&& 0xFF] := rfl
  rw [e]
  simp only [bytesToNumber, List.foldr_cons, List.foldr_nil]
  have h8 : n >>> 8 = n / 256 := by
    rw [Nat.shiftRight_eq_div_pow]
  have hFF : (0xFF : Nat) = 255 := by norm_num
  simp only [hFF, land_255_eq_mod, h8, Nat.shiftLeft_eq]
  have h28 : (2 : Nat) ^ 8 = 256 := by norm_num
  simp only [h28]
  omega

end Modern

namespace Legacy

theorem getLocalFileHeader_congr {d1 d2 : JsDate}
    (h : dateToBytes d1 = dateToBytes d2) (checksum size : Nat)
    (path : List Nat) :
    getLocalFileHeader checksum size path d1 = getLocalFileHeader checksum size path d2 := by
  unfold getLocalFileHeader
  rw [h]

theorem getCentralDirectoryHeader_congr {d1 d2 : JsDate}
    (h : dateToBytes d1 = dateToBytes d2) (checksum size : Nat)
    (path : List Nat) (offset : Nat) (comment : List Nat) :
    getCentralDirectoryHeader checksum size path offset comment d1 =
      getCentralDirectoryHeader checksum size path offset comment d2 := by
  unfold getCentralDirectoryHeader
  rw [h]

theorem _packLoop_congr {d1 d2 : JsDate} (h : dateToBytes d1 = dateToBytes d2) :
    ∀ (entries : List Entry) (offset cdSize : Nat),
      _packLoop d1 entries offset cdSize = _packLoop d2 entries offset cdSize := by
  intro entries
  induction entries with
  | nil => intro o s; rfl
  | cons e rest ih =>
      intro o s
      simp only [_packLoop]
      rw [getLocalFileHeader_congr h, getCentralDirectoryHeader_congr h, ih]

theorem _packLoop_cd_getD (d : JsDate) (e : Entry) (post : List Entry) :
    ∀ (pre : List Entry) (offset cdSize : Nat),
      ((_packLoop d (pre ++ e :: post) offset cdSize).cd).getD pre.length [] =
        getCentralDirectoryHeader (bytesToCrc32 e.data) e.data.length e.path
          (offset + (pre.map fun a =>
            (getLocalFileHeader (bytesToCrc32 a.data) a.data.length a.path d).length
              + a.data.length).sum) [] d := by
  intro pre
  induction pre with
  | nil =>
      intro offset cdSize
      simp [_packLoop]
  | cons a pre ih =>
      intro offset cdSize
      have hsplit : (a :: pre) ++ e :: post = a :: (pre ++ e :: post) := rfl
      rw [hsplit]
      simp only [_packLoop, List.length_cons, List.getD_cons_succ]
      rw [ih]
      have hoff : offset +
          (getLocalFileHeader (bytesToCrc32 a.data) a.data.length a.path d).length +
          a.data.length +
          (pre.map fun x =>
            (getLocalFileHeader (bytesToCrc32 x.data) x.data.length x.path d).length
              + x.data.length).sum =
          offset + ((a :: pre).map fun x =>
            (getLocalFileHeader (bytesToCrc32 x.data) x.data.length x.path d).length
              + x.data.length).sum := by
        simp only [List.map_cons, List.sum_cons]
        ring
      rw [hoff]

end Legacy

/-- C2: in `_pack` of zip.js the offset written into the central directory
header of entry `i` (here: the entry between `pre` and `post`, with
`i = pre.length`) is the sum, over all preceding entries, of the byte
length of their local file header plus the byte length of their data; the
running offset starts at 0 and the format requires no padding. -/
theorem cd_offset_eq_sum_of_preceding (d : JsDate) (pre post : List Legacy.Entry)
    (e : Legacy.Entry) :
    ((Legacy._packLoop d (pre ++ e :: post) 0 0).cd).getD pre.length [] =
      Legacy.getCentralDirectoryHeader (Legacy.bytesToCrc32 e.data) e.data.length
        e.path
        ((pre.map fun a =>
          (Legacy.getLocalFileHeader (Legacy.bytesToCrc32 a.data) a.data.length
            a.path d).length + a.data.length).sum) [] d := by
  have h := Legacy._packLoop_cd_getD d e post pre 0 0
  simpa using h

/-- C7 counterexample: packing the same single-entry registry with the
same (empty) comment at two different wall-clock dates produces different
bytes, so batch materialization is not a pure function of the entry set
and the comment alone. -/
theorem pack_differs_on_clock :
    Legacy._pack [⟨[97], []⟩] [] ⟨2020, 0, 1, 0, 0, 0⟩ ≠
      Legacy._pack [⟨[97], []⟩] [] ⟨2021, 0, 1, 0, 0, 0⟩ := by
  decide

/-- C7 (amended): batch materialization is a pure function of the entry
set, the comment, and the modification date-time sampled from the clock
during the pack: whenever two clock samples encode to the same date bytes,
the packed outputs are byte-identical.  (`_pack` reads but never writes
the entry registry, so materializing is repeatable.) -/
theorem pack_pure_given_clock (entries : List Legacy.Entry) (comment : List Nat)
    (d1 d2 : JsDate) (h : Legacy.dateToBytes d1 = Legacy.dateToBytes d2) :
    Legacy._pack entries comment d1 = Legacy._pack entries comment d2 := by
  unfold Legacy._pack
  cases Legacy.validateComment (some comment) with
  | error e => rfl
  | ok c => simp only [Legacy._packLoop_congr h]

/-- Witness for C7's amended theorem: two genuinely different clock
samples (seconds 10 and 11) with equal date bytes give identical output. -/
theorem pack_pure_given_clock_witness :
    Legacy.dateToBytes ⟨2020, 0, 1, 0, 0, 10⟩ =
      Legacy.dateToBytes ⟨2020, 0, 1, 0, 0, 11⟩ ∧
    Legacy._pack [⟨[97], []⟩] [] ⟨2020, 0, 1, 0, 0, 10⟩ =
      Legacy._pack [⟨[97], []⟩] [] ⟨2020, 0, 1, 0, 0, 11⟩ :=
  ⟨by decide, pack_pure_given_clock _ _ _ _ (by decide)⟩

/-- C6 counterexample: in the zip.js batch variant a comment of 65536
characters makes materialization fail with a thrown error instead of
being truncated. -/
theorem validateComment_throws_on_long_comment :
    Legacy._pack [] (List.replicate 65536 97) ⟨2020, 0, 1, 0, 0, 0⟩ =
      Except.error "Comment exceeds maximum of 65535 characters." := by
  have key : ∀ s : List Nat, s.length = 65536 →
      Legacy._pack [] s ⟨2020, 0, 1, 0, 0, 0⟩ =
        Except.error "Comment exceeds maximum of 65535 characters." := by
    intro s hs
    have h : Legacy.validateComment (some s) =
        Except.error "Comment exceeds maximum of 65535 characters." := by
      simp only [Legacy.validateComment, hs]
      norm_num
    simp only [Legacy._pack, h]
  exact key _ (by rw [List.length_replicate])

/-- C6 (amended): in the class-based batch variant (src/zip.js), the
`_getEOCD` comment handling never fails: the coerced comment is at most
65535 characters, an over-long string comment is clamped to its first
65535 characters, a non-string comment is coerced to the empty comment,
and the EOCD record is always produced, with length 22 plus the coerced
comment length.  The legacy variant (zip.js) instead throws on an
over-long comment. -/
theorem comment_coerced_by_truncation :
    (∀ c : Modern.MComment, (Modern.coerceComment c).length ≤ 65535) ∧
    (∀ s : List Nat, s.length > 65535 →
      Modern.coerceComment (.strM s) = s.take 65535) ∧
    (Modern.coerceComment .otherM = []) ∧
    (∀ (st : Modern.State) (c : Modern.MComment),
      (Modern._getEOCD st c).length = 22 + (Modern.coerceComment c).length) := by
  refine ⟨fun c => ?_, fun s hs => ?_, rfl, fun st c => ?_⟩
  · cases c with
    | otherM => simp [Modern.coerceComment]
    | strM s =>
        simp only [Modern.coerceComment]
        by_cases h0 : s = []
        · simp [h0]
        · simp only [h0, if_false]
          by_cases h1 : s.length > 65535
          · simp [h1]
          · simp [h1]; omega
  · have h0 : s ≠ [] := by
      intro h; rw [h] at hs; simp at hs
    simp [Modern.coerceComment, h0, hs]
  · simp [Modern._getEOCD, Modern.numberToBytes_length, Modern.stringToBytes]
    omega

/-- Witness for C6's amended theorem at a concrete 65536-character
comment. -/
theorem comment_coerced_by_truncation_witness :
    (List.replicate 65536 97).length > 65535 ∧
      Modern.coerceComment (.strM (List.replicate 65536 97)) =
        (List.replicate 65536 97).take 65535 :=
  ⟨by rw [List.length_replicate]; decide,
    comment_coerced_by_truncation.2.1 _ (by rw [List.length_replicate]; decide)⟩

/-- C5: MS-DOS date/time roundtrip in src/zip.js.  For every calendar
value with year 1980-2107, 0-based month 0-11 (i.e. month 1-12), day 1-31,
hour 0-23, minute 0-59 and second 0-59, decoding the encoded bytes
recovers the hour, the minute, the second rounded down to even, and the
same day, 0-based month (hence the same month) and year. -/
theorem dos_datetime_roundtrip (d : JsDate)
    (hy1 : 1980 ≤ d.fullYear) (hy2 : d.fullYear ≤ 2107)
    (hmo : d.month ≤ 11) (hd1 : 1 ≤ d.date) (hd2 : d.date ≤ 31)
    (hh : d.hours ≤ 23) (hmi : d.minutes ≤ 59) (hs : d.seconds ≤ 59) :
    Modern.bytesToTime (Modern.timeToBytes d) =
      (d.hours, d.minutes, 2 * (d.seconds / 2)) ∧
    Modern.bytesToDate (Modern.dateToBytes d) = (d.fullYear, d.month, d.date) := by
  have s11 : ∀ x : Nat, x <<< 11 = x * 2048 := fun x => by
    rw [Nat.shiftLeft_eq]
  have s9 : ∀ x : Nat, x <<< 9 = x * 512 := fun x => by
    rw [Nat.shiftLeft_eq]
  have s5 : ∀ x : Nat, x <<< 5 = x * 32 := fun x => by
    rw [Nat.shiftLeft_eq]
  have r11 : ∀ x : Nat, x >>> 11 = x / 2048 := fun x => by
    rw [Nat.shiftRight_eq_div_pow]
  have r9 : ∀ x : Nat, x >>> 9 = x / 512 := fun x => by
    rw [Nat.shiftRight_eq_div_pow]
  have r5 : ∀ x : Nat, x >>> 5 = x / 32 := fun x => by
    rw [Nat.shiftRight_eq_div_pow]
  constructor
  · simp only [Modern.timeToBytes, Modern.bytesToTime]
    rw [Modern.bytesToNumber_numberToBytes_two _ (by simp only [s11, s5]; omega)]
    simp only [s11, s5, r11, r5, land_31_eq_mod, land_63_eq_mod, Prod.mk.injEq]
    refine ⟨?_, ?_, ?_⟩ <;> omega
  · simp only [Modern.dateToBytes, Modern.bytesToDate]
    rw [Modern.bytesToNumber_numberToBytes_two _ (by simp only [s9, s5]; omega)]
    simp only [s9, s5, r9, r5, land_31_eq_mod, land_15_eq_mod, land_127_eq_mod,
      Prod.mk.injEq]
    refine ⟨?_, ?_, ?_⟩ <;> omega

/-- Witness for C5 at the concrete date-time 1999-12-31 23:59:59. -/
theorem dos_datetime_roundtrip_witness :
    Modern.bytesToTime (Modern.timeToBytes ⟨1999, 11, 31, 23, 59, 59⟩) =
      (23, 59, 2 * (59 / 2)) ∧
    Modern.bytesToDate (Modern.dateToBytes ⟨1999, 11, 31, 23, 59, 59⟩) =
      (1999, 11, 31) :=
  dos_datetime_roundtrip ⟨1999, 11, 31, 23, 59, 59⟩ (by decide) (by decide)
    (by decide) (by decide) (by decide) (by decide) (by decide) (by decide)

/-- C4 counterexample: in the class-based variant (src/zip.js), adding a
file at "a/b.txt" and then a folder at "a" does not fail — the folder
entry "a/" is registered (the count becomes 2 and both names are listed),
because `_addEntry` only checks for an exact duplicate name. -/
theorem modern_folder_file_collision_not_detected :
    (Modern.addFolder
        (Modern.addFile Modern.init [97, 47, 98, 46, 116, 120, 116]
          (.str [120]) ⟨2020, 0, 1, 0, 0, 0⟩).fst
        [97] ⟨2020, 0, 1, 0, 0, 0⟩).snd = 2 ∧
    Modern.getNames (Modern.addFolder
        (Modern.addFile Modern.init [97, 47, 98, 46, 116, 120, 116]
          (.str [120]) ⟨2020, 0, 1, 0, 0, 0⟩).fst
        [97] ⟨2020, 0, 1, 0, 0, 0⟩).fst =
      [[97, 47, 98, 46, 116, 120, 116], [97, 47]] := by
  refine ⟨by decide, by decide⟩

/-- C4 (amended): the folder/file collision rules hold in the legacy
variant (zip.js) only.  There, `addEntry` fails with "path collides with
an existing folder." whenever the normalized path is a path-segment prefix
of an existing entry's path (the path is an implied folder), and with
"path parent folder collides with an existing file." whenever some parent
prefix of the normalized path is an existing file; in both cases the
thrown error means the entry is not registered.  In particular adding
"a/b.txt" then "a" (or the folder spelling "a/"), and the reverse order,
fail as the claim states.  The class-based variant (src/zip.js) checks
only exact duplicates and registers such entries (see the counterexample). -/
theorem legacy_folder_file_collision (entries : List Legacy.Entry)
    (path0 : List Nat) (data : JsData) :
    ((Legacy.normalizePath path0).length ≠ 0 →
      (Legacy.normalizePath path0).length ≤ 0xFFFF →
      Legacy.hasFile entries (Legacy.normalizePath path0) = false →
      Legacy.hasFolder entries (Legacy.normalizePath path0) = true →
      Legacy.addEntry entries path0 data =
        .error "path collides with an existing folder.") ∧
    ((Legacy.normalizePath path0).length ≠ 0 →
      (Legacy.normalizePath path0).length ≤ 0xFFFF →
      Legacy.hasFile entries (Legacy.normalizePath path0) = false →
      Legacy.hasFolder entries (Legacy.normalizePath path0) = false →
      (Legacy.getFolderPathsFromPath (Legacy.normalizePath path0)).any
        (fun p => Legacy.hasFile entries p) = true →
      Legacy.addEntry entries path0 data =
        .error "path parent folder collides with an existing file.") ∧
    Legacy.addEntry [⟨[97, 47, 98, 46, 116, 120, 116], []⟩] [97, 47] (.str []) =
      .error "path collides with an existing folder." ∧
    Legacy.addEntry [⟨[97], []⟩] [97, 47, 98, 46, 116, 120, 116] (.str []) =
      .error "path parent folder collides with an existing file." := by
  refine ⟨fun h1 h2 hf hfold => ?_, fun h1 h2 hf hfold hpar => ?_,
    by decide, by decide⟩
  · have h2' : ¬ ((Legacy.normalizePath path0).length > 0xFFFF) := by omega
    simp [Legacy.addEntry, h1, h2', hf, hfold]
  · have h2' : ¬ ((Legacy.normalizePath path0).length > 0xFFFF) := by omega
    simp [Legacy.addEntry, h1, h2', hf, hfold, hpar]

/-- Witness for C4's amended theorem: the first general clause applied to
the concrete state holding the file "a/b.txt" and the add of "a". -/
theorem legacy_folder_file_collision_witness :
    (Legacy.normalizePath [97]).length ≠ 0 ∧
    (Legacy.normalizePath [97]).length ≤ 0xFFFF ∧
    Legacy.hasFile [⟨[97, 47, 98, 46, 116, 120, 116], []⟩]
      (Legacy.normalizePath [97]) = false ∧
    Legacy.hasFolder [⟨[97, 47, 98, 46, 116, 120, 116], []⟩]
      (Legacy.normalizePath [97]) = true ∧
    Legacy.addEntry [⟨[97, 47, 98, 46, 116, 120, 116], []⟩] [97] (.arr [5]) =
      .error "path collides with an existing folder." :=
  ⟨by decide, by decide, by decide, by decide,
    (legacy_folder_file_collision [⟨[97, 47, 98, 46, 116, 120, 116], []⟩]
      [97] (.arr [5])).1 (by decide) (by decide) (by decide) (by decide)⟩

namespace Modern

theorem _addEntry_unchanged_or_pushes (st : State) (n : List Nat)
    (dta : JsData) (f : Bool) (dt : JsDate) :
    (_addEntry st n dta f dt).fst = st ∨
      ((_addEntry st n dta f dt).fst._parts.length = st._parts.length + 2 ∧
       (_addEntry st n dta f dt).fst._cd.length = st._cd.length + 1 ∧
       (_addEntry st n dta f dt).snd = st._cd.length + 1) := by
  unfold _addEntry
  dsimp only
  repeat' split
  all_goals first
    | (left; rfl)
    | (right; refine ⟨?_, ?_, rfl⟩ <;> simp)

theorem step_preserves_invariant (st : State) (op : Op)
    (h : st._parts.length = 2 * st._cd.length) :
    (step st op)._parts.length = 2 * (step st op)._cd.length := by
  cases op with
  | addFileOp p dta d =>
      rcases _addEntry_unchanged_or_pushes st p dta false d with hu | ⟨hp, hc, _⟩
      · simpa [step, addFile, hu]
      · simp only [step, addFile] at hp hc ⊢
        omega
  | addFolderOp p d =>
      rcases _addEntry_unchanged_or_pushes st p JsData.nullish true d with hu | ⟨hp, hc, _⟩
      · simpa [step, addFolder, hu]
      · simp only [step, addFolder] at hp hc ⊢
        omega
  | popOp =>
      simp only [step, pop, List.length_dropLast]
      omega

theorem foldl_preserves_invariant :
    ∀ (ops : List Op) (st : State), st._parts.length = 2 * st._cd.length →
      (ops.foldl step st)._parts.length = 2 * (ops.foldl step st)._cd.length := by
  intro ops
  induction ops with
  | nil => intro st h; simpa
  | cons op ops ih =>
      intro st h
      simp only [List.foldl_cons]
      exact ih _ (step_preserves_invariant st op h)

end Modern

/-- C9: across every sequence of `addFile`, `addFolder` and `pop` calls on
a src/zip.js archive, the state keeps `_parts.length = 2 * _cd.length`
(two parts — local header and data — per registered entry) and
`count() = _cd.length`; each `_addEntry` call either leaves the state
unchanged (a skipped entry) or grows `_parts` by exactly 2 and `_cd` by
exactly 1, returning the new count; and `pop` removes exactly the last
central directory record and the last two parts. -/
theorem parts_cd_invariant :
    (∀ ops : List Modern.Op,
      (Modern.run ops)._parts.length = 2 * (Modern.run ops)._cd.length ∧
      Modern.count (Modern.run ops) = (Modern.run ops)._cd.length) ∧
    (∀ (st : Modern.State) (n : List Nat) (dta : JsData) (f : Bool) (dt : JsDate),
      (Modern._addEntry st n dta f dt).fst = st ∨
        ((Modern._addEntry st n dta f dt).fst._parts.length =
            st._parts.length + 2 ∧
         (Modern._addEntry st n dta f dt).fst._cd.length = st._cd.length + 1 ∧
         (Modern._addEntry st n dta f dt).snd = st._cd.length + 1)) ∧
    (∀ st : Modern.State,
      (Modern.pop st).fst._cd = st._cd.dropLast ∧
      (Modern.pop st).fst._parts = st._parts.dropLast.dropLast) := by
  refine ⟨fun ops => ⟨?_, rfl⟩, Modern._addEntry_unchanged_or_pushes,
    fun st => ⟨rfl, rfl⟩⟩
  exact Modern.foldl_preserves_invariant ops Modern.init rfl

/-- C10: calling `addFile` of src/zip.js with an absent (falsy) payload
passes validation: the payload is coerced to an empty byte buffer and the
entry is registered with data length 0 — the second part pushed is the
empty data buffer — and the call returns the incremented count. -/
theorem addFile_nullish_payload (st : Modern.State) (name : List Nat)
    (dt : JsDate)
    (h1 : Modern.normalizeFilename name ≠ [])
    (h2 : (Modern.normalizeFilename name).length ≤ 255)
    (h3 : (Modern.getNames st).contains (Modern.normalizeFilename name) = false) :
    Modern.addFile st name JsData.nullish dt =
      (⟨st._parts ++
          [Modern.localFileHeader (Modern.normalizeFilename name) [] dt, []],
        st._cd ++
          [Modern.cdFileHeader (Modern.normalizeFilename name) []
            ((st._parts.map List.length).sum) false dt]⟩,
       st._cd.length + 1) := by
  unfold Modern.addFile Modern._addEntry
  have hlen : ¬ ((Modern.normalizeFilename name).length = 0) := by
    intro h
    exact h1 (List.length_eq_zero.mp h)
  have h2' : ¬ ((Modern.normalizeFilename name).length > 0xFF) := by omega
  have h3' : Modern.normalizeFilename name ∉ Modern.getNames st := by
    simpa using h3
  simp [hlen, h2', h3', Modern.coerceData]

/-- Witness for C10 at the path "a" on the freshly constructed state. -/
theorem addFile_nullish_payload_witness :
    Modern.normalizeFilename [97] ≠ [] ∧
    (Modern.normalizeFilename [97]).length ≤ 255 ∧
    (Modern.getNames Modern.init).contains (Modern.normalizeFilename [97]) = false ∧
    Modern.addFile Modern.init [97] JsData.nullish ⟨2020, 0, 1, 0, 0, 0⟩ =
      (⟨Modern.init._parts ++
          [Modern.localFileHeader (Modern.normalizeFilename [97]) []
            ⟨2020, 0, 1, 0, 0, 0⟩, []],
        Modern.init._cd ++
          [Modern.cdFileHeader (Modern.normalizeFilename [97]) []
            ((Modern.init._parts.map List.length).sum) false
            ⟨2020, 0, 1, 0, 0, 0⟩]⟩,
       Modern.init._cd.length + 1) :=
  ⟨by decide, by decide, by decide,
    addFile_nullish_payload Modern.init [97] ⟨2020, 0, 1, 0, 0, 0⟩
      (by decide) (by decide) (by decide)⟩

namespace ZipperStream

theorem foldl_processChunk_snd :
    ∀ (chunks : List (List Nat)) (crc fl : Nat),
      (chunks.foldl processChunk (crc, fl)).2 = fl + (chunks.map List.length).sum := by
  intro chunks
  induction chunks with
  | nil => intro crc fl; simp [streamFold]
  | cons c cs ih =>
      intro crc fl
      simp only [List.foldl_cons, List.map_cons, List.sum_cons]
      rw [show processChunk (crc, fl) c =
        ((List.range c.length).foldl (fun x k => crcStep x (valueAt c (fl + k))) crc,
          fl + c.length) from rfl]
      rw [ih]
      omega

end ZipperStream

/-- C3: the Data Descriptor size field is always the total chunk length,
but the CRC is NOT chunking-invariant: the `addStream` checksum loop
indexes every chunk with the cross-chunk running index, so on the spec's
own 10/20/5 chunk example the emitted CRC equals the CRC of a mangled
sequence (first chunk, then the second chunk's bytes 10-19, then zeros
from out-of-range reads) and differs from the CRC of the concatenation of
the three chunks. -/
theorem stream_crc_not_chunking_invariant :
    (∀ chunks : List (List Nat),
      ZipperStream.streamSize chunks = (chunks.map List.length).sum) ∧
    ZipperStream.streamSize
      [List.replicate 10 1, List.replicate 20 2, List.replicate 5 3] = 35 ∧
    ZipperStream.streamCrc
      [List.replicate 10 1, List.replicate 20 2, List.replicate 5 3] =
      Legacy.bytesToCrc32
        (List.replicate 10 1 ++ List.replicate 10 2 ++ List.replicate 15 0) ∧
    ZipperStream.streamCrc
      [List.replicate 10 1, List.replicate 20 2, List.replicate 5 3] ≠
      Legacy.bytesToCrc32
        (List.replicate 10 1 ++ List.replicate 20 2 ++ List.replicate 5 3) := by
  refine ⟨fun chunks => ?_, by decide, by decide, by decide⟩
  have h := ZipperStream.foldl_processChunk_snd chunks 0xFFFFFFFF 0
  simpa [ZipperStream.streamSize, ZipperStream.streamFold] using h

namespace Tar

theorem stringToBytes_length (s : List Nat) (len : Nat) :
    (stringToBytes s len).length = len := by
  simp [stringToBytes]

end Tar

/-- C8: the tar variant's padding is wrong exactly on 512-aligned data.
Every USTAR header is 512 bytes; for every single-file archive the packed
parts are header, data, and a zero block of `512 - data.length % 512`
bytes — a quantity that is never 0, so data whose length is already a
multiple of 512 (the empty file shown concretely) is followed by a full
512-byte zero block even though the next 512-byte boundary needs none. -/
theorem tar_pack_always_pads_full_block :
    (∀ (path : List Nat) (size dateSec : Nat),
      (Tar.getTarHeader path size dateSec).length = 512) ∧
    (∀ (p data : List Nat) (t : Nat),
      Tar._pack [(p, data)] t =
        [Tar.getTarHeader p data.length t, data,
          List.replicate (512 - data.length % 512) 0]) ∧
    (Tar._pack [([97], [])] 0).map List.length = [512, 0, 512] := by
  refine ⟨fun path size dateSec => ?_, fun p data t => ?_, by decide⟩
  · simp [Tar.getTarHeader, Tar.stringToBytes_length, List.length_append,
      List.length_replicate, List.length_drop]
    omega
  · have hp : 512 - data.length % 512 > 0 := by omega
    simp [Tar._pack, hp]
